import Mathlib

/-!
Verification of the poker-splitwise-dashboard ledger core (src/app.py).

The Flask application keeps four tables: players (id, name, base_total),
history (ledger entries), pots (daily pot counters) and pot_history.
We embed the tables as lists of records and each route handler as a pure
function from a database state (plus the session's admin flag and the
request parameters) to an Except result.  SQL statements are translated
literally: UPDATE ... WHERE becomes List.map with an if on the WHERE
predicate, DELETE ... WHERE becomes List.filter with the negated
predicate, SELECT ... WHERE ... LIMIT 1 becomes List.find?, INSERT
becomes list append.  Timestamps, dates and autoincrement ids are
abstracted as Nat parameters supplied by the environment.

Python floats are idealised as exact rationals, and the built-in round
is modelled as round-half-to-even (Python's documented convention).
-/

namespace PokerDash

/-- Round half to even on the rationals, the convention of Python's
built-in round when the value is exactly representable. -/
def rhe (q : ℚ) : ℤ :=
  if q - ⌊q⌋ < 1/2 then ⌊q⌋
  else if 1/2 < q - ⌊q⌋ then ⌊q⌋ + 1
  else if Even ⌊q⌋ then ⌊q⌋ else ⌊q⌋ + 1

/-- Python round(q, d): round to d decimal digits, half to even. -/
def round_to (d : ℕ) (q : ℚ) : ℚ :=
  ((rhe (q * 10 ^ d) : ℚ)) / 10 ^ d

/-- src/app.py, points_to_dollars: round((points / 1000) * 5, 2). -/
def points_to_dollars (points : ℤ) : ℚ :=
  round_to 2 ((points : ℚ) / 1000 * 5)

lemma rhe_mono {p q : ℚ} (hpq : p ≤ q) : rhe p ≤ rhe q := by
  have hf : ⌊p⌋ ≤ ⌊q⌋ := Int.floor_le_floor hpq
  rcases eq_or_lt_of_le hf with heq | hlt
  · have hfr : p - (⌊p⌋ : ℚ) ≤ q - (⌊q⌋ : ℚ) := by
      rw [heq]; linarith
    unfold rhe
    rw [heq] at hfr ⊢
    split_ifs <;> first | omega | linarith
  · unfold rhe
    split_ifs <;> omega

lemma round_to_mono (d : ℕ) {p q : ℚ} (h : p ≤ q) : round_to d p ≤ round_to d q := by
  unfold round_to
  have h10 : (0:ℚ) < 10 ^ d := by positivity
  have hr : rhe (p * 10 ^ d) ≤ rhe (q * 10 ^ d) :=
    rhe_mono (mul_le_mul_of_nonneg_right h (le_of_lt h10))
  have hr' : ((rhe (p * 10 ^ d) : ℚ)) ≤ ((rhe (q * 10 ^ d) : ℚ)) := by exact_mod_cast hr
  exact div_le_div_of_nonneg_right hr' h10.le

/-- Claim C2: points_to_dollars equals round(points / 1000 * 5, 2) for every
integer input, is a (total, pure) function, is monotone non-decreasing, and
maps 1000 to 5.00, -1000 to -5.00 and 0 to 0.00. -/
theorem points_to_dollars_spec :
    (∀ p : ℤ, points_to_dollars p = round_to 2 ((p : ℚ) / 1000 * 5)) ∧
    (∀ p q : ℤ, p ≤ q → points_to_dollars p ≤ points_to_dollars q) ∧
    points_to_dollars 1000 = 5 ∧
    points_to_dollars (-1000) = -5 ∧
    points_to_dollars 0 = 0 := by
  refine ⟨fun p => rfl, ?_, by norm_num [points_to_dollars, round_to, rhe],
    by norm_num [points_to_dollars, round_to, rhe],
    by norm_num [points_to_dollars, round_to, rhe]⟩
  intro p q h
  apply round_to_mono
  have hpq : (p : ℚ) ≤ (q : ℚ) := by exact_mod_cast h
  linarith

/-- Claim C2 witness: monotonicity instantiated at -1000 and 1000. -/
theorem points_to_dollars_spec_witness :
    points_to_dollars (-1000) ≤ points_to_dollars 1000 :=
  points_to_dollars_spec.2.1 (-1000) 1000 (by decide)

/-! ## Data model: the four tables of init_db -/

/-- A row of the players table: (id, name, base_total). -/
structure Player where
  id : Nat
  name : String
  base_total : Int
deriving DecidableEq, Repr

/-- A row of the history table: one ledger entry. -/
structure HistoryEntry where
  id : Nat
  player_id : Nat
  points_added : Int
  total_after : Int
  timestamp : Nat
deriving DecidableEq, Repr

/-- A row of the pots table: the daily pot counter,
unique per (player_id, session_date). -/
structure PotEntry where
  player_id : Nat
  pot_count : Int
  session_date : Nat
deriving DecidableEq, Repr

/-- A row of the pot_history table. -/
structure PotHistoryEntry where
  id : Nat
  player_id : Nat
  pot_count : Int
  session_date : Nat
  timestamp : Nat
deriving DecidableEq, Repr

/-- The database state. -/
structure DB where
  players : List Player
  history : List HistoryEntry
  pots : List PotEntry
  pot_history : List PotHistoryEntry
deriving DecidableEq, Repr

/-- The failure outcomes the route handlers can return
(HTTP 403, 404, 400 variants). -/
inductive ApiError where
  | Unauthorized
  | NotFound
  | InvalidName
  | DuplicateName
  | InvalidCount
deriving DecidableEq, Repr

/-- SELECT ... FROM players WHERE id = ? (LIMIT 1 implicit via fetchone). -/
def findPlayer (db : DB) (pid : Nat) : Option Player :=
  db.players.find? (fun p => p.id == pid)

/-- The player's current base_total, when the player exists. -/
def running_total (db : DB) (pid : Nat) : Option Int :=
  (findPlayer db pid).map (fun p => p.base_total)

/-- SELECT ... FROM history WHERE player_id = ?, in insertion order. -/
def playerHistory (db : DB) (pid : Nat) : List HistoryEntry :=
  db.history.filter (fun h => h.player_id == pid)

/-- SELECT ... FROM pots WHERE player_id = ? AND session_date = today. -/
def findPot (db : DB) (pid : Nat) (today : Nat) : Option PotEntry :=
  db.pots.find? (fun e => e.player_id == pid && e.session_date == today)

/-! ## Route handlers (src/app.py), embedded as pure functions.
The admin argument is the session's is_admin flag; timestamps, dates and
fresh row ids are passed in by the environment. -/

/-- src/app.py add_player (POST /api/players): admin check, trim and
reject empty name, INSERT with base_total 0 (UNIQUE name violation
reported as a duplicate-player error). -/
def add_player (admin : Bool) (db : DB) (name : String) (newId : Nat) :
    Except ApiError (DB × Nat) :=
  if !admin then .error .Unauthorized
  else
    let name := name.trim
    if name = "" then .error .InvalidName
    else if db.players.any (fun p => p.name == name) then .error .DuplicateName
    else .ok ({ db with players := db.players ++ [⟨newId, name, 0⟩] }, newId)

/-- src/app.py add_points (POST /api/players/id/points): admin check,
SELECT base_total, 404 when absent, UPDATE players SET base_total = new_total,
INSERT the history row carrying total_after = new_total.  There is no
validation of the delta. -/
def add_points (admin : Bool) (db : DB) (pid : Nat) (points : Int)
    (ts newId : Nat) : Except ApiError (DB × Int) :=
  if !admin then .error .Unauthorized
  else
    match findPlayer db pid with
    | none => .error .NotFound
    | some p =>
      let new_total := p.base_total + points
      .ok ({ db with
              players := db.players.map (fun q =>
                if q.id == pid then { q with base_total := new_total } else q),
              history := db.history ++ [⟨newId, pid, points, new_total, ts⟩] },
           new_total)

/-- src/app.py delete_player (DELETE /api/players/id): admin check, then
DELETE FROM history WHERE player_id = ?, then DELETE FROM players
WHERE id = ?.  Never reports a missing id. -/
def delete_player (admin : Bool) (db : DB) (pid : Nat) : Except ApiError DB :=
  if !admin then .error .Unauthorized
  else .ok { db with
              history := db.history.filter (fun h => h.player_id != pid),
              players := db.players.filter (fun p => p.id != pid) }

/-- src/app.py delete_history_entry (DELETE /api/history/id): admin check,
SELECT the entry, 404 when absent, UPDATE players SET
base_total = base_total - points_added WHERE id = player_id, then
DELETE FROM history WHERE id = ?. -/
def delete_history_entry (admin : Bool) (db : DB) (hid : Nat) :
    Except ApiError (DB × Int) :=
  if !admin then .error .Unauthorized
  else
    match db.history.find? (fun h => h.id == hid) with
    | none => .error .NotFound
    | some h =>
      .ok ({ db with
              players := db.players.map (fun q =>
                if q.id == h.player_id then
                  { q with base_total := q.base_total - h.points_added }
                else q),
              history := db.history.filter (fun e => e.id != hid) },
           h.points_added)

/-- src/app.py clear_all_history (DELETE /api/history/clear): admin check,
then DELETE FROM history. -/
def clear_all_history (admin : Bool) (db : DB) : Except ApiError DB :=
  if !admin then .error .Unauthorized
  else .ok { db with history := [] }

/-- src/app.py add_pot (POST /api/pots/id/add): admin check, upsert into
pots (insert at 1, or increment today's row), then INSERT a pot_history
row with pot_count 1. -/
def add_pot (admin : Bool) (db : DB) (pid : Nat) (today ts newId : Nat) :
    Except ApiError DB :=
  if !admin then .error .Unauthorized
  else
    let pots :=
      match findPot db pid today with
      | none => db.pots ++ [⟨pid, 1, today⟩]
      | some _ => db.pots.map (fun e =>
          if e.player_id == pid && e.session_date == today then
            { e with pot_count := e.pot_count + 1 }
          else e)
    .ok { db with pots := pots,
                  pot_history := db.pot_history ++ [⟨newId, pid, 1, today, ts⟩] }

/-- src/app.py remove_pot (POST /api/pots/id/remove): admin check, then
UPDATE pots SET pot_count = MAX(pot_count - 1, 0)
WHERE player_id = ? AND session_date = today. -/
def remove_pot (admin : Bool) (db : DB) (pid : Nat) (today : Nat) :
    Except ApiError DB :=
  if !admin then .error .Unauthorized
  else .ok { db with pots := db.pots.map (fun e =>
      if e.player_id == pid && e.session_date == today then
        { e with pot_count := max (e.pot_count - 1) 0 }
      else e) }

/-- src/app.py reset_pots (POST /api/pots/reset): admin check, then
DELETE FROM pots WHERE session_date = today. -/
def reset_pots (admin : Bool) (db : DB) (today : Nat) : Except ApiError DB :=
  if !admin then .error .Unauthorized
  else .ok { db with pots := db.pots.filter (fun e => e.session_date != today) }

/-- src/app.py delete_pot_history (DELETE /api/pots/history/id): admin
check, then DELETE FROM pot_history WHERE id = ?. -/
def delete_pot_history (admin : Bool) (db : DB) (hid : Nat) :
    Except ApiError DB :=
  if !admin then .error .Unauthorized
  else .ok { db with pot_history := db.pot_history.filter (fun e => e.id != hid) }

/-- src/app.py update_pot_history (PUT /api/pots/history/id): admin check,
reject pot_count below 1, then UPDATE pot_history SET pot_count = ?
WHERE id = ?. -/
def update_pot_history (admin : Bool) (db : DB) (hid : Nat) (new_count : Int) :
    Except ApiError DB :=
  if !admin then .error .Unauthorized
  else if new_count < 1 then .error .InvalidCount
  else .ok { db with pot_history := db.pot_history.map (fun e =>
      if e.id == hid then { e with pot_count := new_count } else e) }

/-- src/app.py get_history (GET /api/history): join history with players
on player_id, optionally filtered to one player name, ordered by
timestamp descending.  A row is (id, name, points_added, total_after,
timestamp). -/
def get_history (db : DB) (player_name : Option String) :
    List (Nat × String × Int × Int × Nat) :=
  let rows := db.history.filterMap (fun h =>
    match db.players.find? (fun p => p.id == h.player_id) with
    | none => none
    | some p =>
      match player_name with
      | none => some (h.id, p.name, h.points_added, h.total_after, h.timestamp)
      | some n =>
        if p.name == n then
          some (h.id, p.name, h.points_added, h.total_after, h.timestamp)
        else none)
  rows.insertionSort (fun a b => b.2.2.2.2 ≤ a.2.2.2.2)

/-! ## General list helpers -/

lemma find?_map_invariant {α : Type} (p : α → Bool) (f : α → α)
    (hpf : ∀ a, p (f a) = p a) :
    ∀ l : List α, (l.map f).find? p = (l.find? p).map f
  | [] => rfl
  | a :: t => by
    have ih := find?_map_invariant p f hpf t
    rw [List.map_cons, List.find?_cons, List.find?_cons, hpf a]
    cases hpa : p a
    · simpa using ih
    · rfl

lemma map_eq_self_of_none {α : Type} (p : α → Bool) (f : α → α)
    (hf : ∀ a, p a = false → f a = a) (l : List α)
    (hl : l.find? p = none) : l.map f = l := by
  have hall := List.find?_eq_none.mp hl
  calc l.map f = l.map id := by
        apply List.map_congr_left
        intro a ha
        exact hf a (Bool.not_eq_true _ ▸ (by simpa using hall a ha))
    _ = l := List.map_id l

lemma length_filter_not_add_countP {α : Type} (p : α → Bool) :
    ∀ l : List α, (l.filter (fun a => ! p a)).length + l.countP p = l.length
  | [] => rfl
  | a :: t => by
    have ih := length_filter_not_add_countP p t
    by_cases hpa : p a = true <;>
      simp [List.filter_cons, List.countP_cons, hpa] <;>
      omega

/-! ## Claim theorems: access gate and ledger basics -/

/-- Claim C10: every mutating operation invoked without the admin flag
returns the Unauthorized failure; since the handlers return before
touching the store, no table is read or written. -/
theorem unauthorized_mutations_rejected :
    (∀ db name newId, add_player false db name newId = .error .Unauthorized) ∧
    (∀ db pid points ts newId,
        add_points false db pid points ts newId = .error .Unauthorized) ∧
    (∀ db pid, delete_player false db pid = .error .Unauthorized) ∧
    (∀ db hid, delete_history_entry false db hid = .error .Unauthorized) ∧
    (∀ db, clear_all_history false db = .error .Unauthorized) ∧
    (∀ db pid today ts newId,
        add_pot false db pid today ts newId = .error .Unauthorized) ∧
    (∀ db pid today, remove_pot false db pid today = .error .Unauthorized) ∧
    (∀ db today, reset_pots false db today = .error .Unauthorized) ∧
    (∀ db hid, delete_pot_history false db hid = .error .Unauthorized) ∧
    (∀ db hid c, update_pot_history false db hid c = .error .Unauthorized) := by
  refine ⟨fun _ _ _ => rfl, fun _ _ _ _ _ => rfl, fun _ _ => rfl, fun _ _ => rfl,
    fun _ => rfl, fun _ _ _ _ _ => rfl, fun _ _ _ => rfl, fun _ _ => rfl,
    fun _ _ => rfl, fun _ _ _ => rfl⟩

/-- A one-player database used as a concrete counterexample input. -/
def dbAlice : DB := ⟨[⟨1, "Alice", 0⟩], [], [], []⟩

/-- Claim C3 counterexample: a zero-point addition to an existing player
does not fail; it succeeds and appends a ledger entry (the handler has no
delta validation at all). -/
theorem add_points_zero_delta_not_rejected :
    add_points true dbAlice 1 0 7 1 =
      .ok (⟨[⟨1, "Alice", 0⟩], [⟨1, 1, 0, 0, 7⟩], [], []⟩, 0) := by
  rfl

/-- Claim C3 (amended): a zero-delta add_points call for an existing
player succeeds, leaves the player's running_total unchanged, and appends
a ledger entry with points_added 0 and total_after equal to the unchanged
running_total. -/
theorem add_points_zero_delta_behavior (db : DB) (pid : Nat) (p : Player)
    (ts newId : Nat) (hp : findPlayer db pid = some p) :
    ∃ db', add_points true db pid 0 ts newId = .ok (db', p.base_total) ∧
      running_total db' pid = some p.base_total ∧
      db'.history = db.history ++ [⟨newId, pid, 0, p.base_total, ts⟩] := by
  have hid : ∀ q : Player,
      ((if q.id == pid then { q with base_total := p.base_total } else q).id == pid)
        = (q.id == pid) := by
    intro q; by_cases h : (q.id == pid) = true <;> simp [h]
  have hmain : add_points true db pid 0 ts newId =
      .ok ({ db with
              players := db.players.map (fun q =>
                if q.id == pid then { q with base_total := p.base_total + 0 } else q),
              history := db.history ++ [⟨newId, pid, 0, p.base_total + 0, ts⟩] },
           p.base_total + 0) := by
    simp [add_points, hp]
  simp only [add_zero] at hmain
  refine ⟨_, hmain, ?_, ?_⟩
  · unfold running_total findPlayer
    simp only
    rw [find?_map_invariant _ _ hid]
    have heq : db.players.find? (fun q => q.id == pid) = some p := hp
    rw [heq]
    have hpp := List.find?_some heq
    simp only at hpp
    simp [hpp]
  · simp

/-- Claim C3 witness for the amended statement, on the one-player
database. -/
theorem add_points_zero_delta_behavior_witness :
    ∃ db', add_points true dbAlice 1 0 7 1 = .ok (db', (0:Int)) ∧
      running_total db' 1 = some 0 ∧
      db'.history = dbAlice.history ++ [⟨1, 1, 0, 0, 7⟩] :=
  add_points_zero_delta_behavior dbAlice 1 ⟨1, "Alice", 0⟩ 7 1 rfl

/-- An UPDATE ... WHERE id = pid touching other columns only commutes
with looking a player up by id. -/
lemma find?_players_map_update (players : List Player) (target pid : Nat)
    (g : Player → Player) (hg : ∀ q, (g q).id = q.id) :
    (players.map (fun q => if q.id == pid then g q else q)).find?
        (fun q => q.id == target)
      = (players.find? (fun q => q.id == target)).map
          (fun q => if q.id == pid then g q else q) := by
  apply find?_map_invariant
  intro a
  by_cases h : (a.id == pid) = true <;> simp [h, hg]

/-- Claim C6: clear_all deletes every ledger entry for every player (the
history query returns nothing afterwards, with or without a name filter)
and leaves every player's running_total unchanged. -/
theorem clear_all_history_spec (db : DB) :
    ∃ db', clear_all_history true db = .ok db' ∧
      get_history db' none = [] ∧
      (∀ name, get_history db' (some name) = []) ∧
      db'.players = db.players ∧
      (∀ pid, running_total db' pid = running_total db pid) := by
  exact ⟨_, rfl, rfl, fun _ => rfl, rfl, fun _ => rfl⟩

/-- Claim C7: deleting a player removes all of their ledger entries and
the player itself, never fails, and is a state-preserving no-op when the
player is absent (assuming referential integrity: an absent player owns
no ledger entries). -/
theorem delete_player_spec (db : DB) (pid : Nat) :
    ∃ db', delete_player true db pid = .ok db' ∧
      playerHistory db' pid = [] ∧
      findPlayer db' pid = none ∧
      (∀ e ∈ db.history, e.player_id ≠ pid → e ∈ db'.history) ∧
      (findPlayer db pid = none → playerHistory db pid = [] → db' = db) := by
  refine ⟨_, rfl, ?_, ?_, ?_, ?_⟩
  · unfold playerHistory
    simp only [List.filter_filter]
    apply List.filter_eq_nil_iff.mpr
    intro a _
    by_cases h : (a.player_id == pid) = true <;> simp [h, bne]
  · unfold findPlayer
    simp only
    apply List.find?_eq_none.mpr
    intro q hq
    have := (List.mem_filter.mp hq).2
    simpa [bne] using this
  · intro e he hne
    simp only
    exact List.mem_filter.mpr ⟨he, by simpa [bne] using hne⟩
  · intro hnone hhist
    have h1 : db.history.filter (fun h => h.player_id != pid) = db.history := by
      apply List.filter_eq_self.mpr
      intro a ha
      have := List.filter_eq_nil_iff.mp hhist a ha
      simpa [bne] using this
    have h2 : db.players.filter (fun p => p.id != pid) = db.players := by
      apply List.filter_eq_self.mpr
      intro a ha
      have hn : ¬ (a.id == pid) = true := by
        have := List.find?_eq_none.mp hnone a ha
        simpa using this
      simpa [bne] using hn
    simp only [h1, h2]

/-- Claim C5: reversing a history entry fails with NotFound when the
entry is absent; otherwise it subtracts the entry's points_added from the
owning player's running_total and deletes exactly that entry, keeping
every other entry (with all its fields) in place. -/
theorem delete_history_entry_spec (db : DB) (hid : Nat) :
    (db.history.find? (fun e => e.id == hid) = none →
      delete_history_entry true db hid = .error .NotFound) ∧
    (∀ h, db.history.find? (fun e => e.id == hid) = some h →
      ∃ db', delete_history_entry true db hid = .ok (db', h.points_added) ∧
        (∀ p, findPlayer db h.player_id = some p →
          findPlayer db' h.player_id =
            some { p with base_total := p.base_total - h.points_added }) ∧
        db'.history = db.history.filter (fun e => e.id != hid) ∧
        (∀ e ∈ db.history, e.id ≠ hid → e ∈ db'.history) ∧
        (∀ e ∈ db'.history, e ∈ db.history ∧ e.id ≠ hid) ∧
        ((db.history.map (fun e => e.id)).Nodup →
          db'.history.length + 1 = db.history.length)) := by
  constructor
  · intro hn
    simp [delete_history_entry, hn]
  · intro h hf
    have hmain : delete_history_entry true db hid =
        .ok ({ db with
                players := db.players.map (fun q =>
                  if q.id == h.player_id then
                    { q with base_total := q.base_total - h.points_added }
                  else q),
                history := db.history.filter (fun e => e.id != hid) },
             h.points_added) := by
      simp [delete_history_entry, hf]
    refine ⟨_, hmain, ?_, rfl, ?_, ?_, ?_⟩
    · intro p hp
      unfold findPlayer
      simp only
      rw [find?_players_map_update db.players h.player_id h.player_id
        (fun q => { q with base_total := q.base_total - h.points_added })
        (fun q => rfl)]
      have hp' : db.players.find? (fun q => q.id == h.player_id) = some p := hp
      rw [hp']
      have hpp := List.find?_some hp'
      simp only [beq_iff_eq] at hpp
      simp [hpp]
    · intro e he hne
      simp only
      exact List.mem_filter.mpr ⟨he, by simpa [bne] using hne⟩
    · intro e he
      simp only at he
      have := List.mem_filter.mp he
      exact ⟨this.1, by simpa [bne] using this.2⟩
    · intro hnodup
      have hmem : h ∈ db.history := List.mem_of_find?_eq_some hf
      have hhid := List.find?_some hf
      simp only [beq_iff_eq] at hhid
      have hidmem : hid ∈ db.history.map (fun e => e.id) :=
        List.mem_map.mpr ⟨h, hmem, hhid⟩
      have hcount : (db.history.map (fun e => e.id)).count hid = 1 :=
        List.count_eq_one_of_mem hnodup hidmem
      have hcountP : db.history.countP (fun e => e.id == hid) = 1 := by
        rw [List.count_eq_countP, List.countP_map] at hcount
        exact hcount
      have hlen := length_filter_not_add_countP (fun e => e.id == hid) db.history
      have hfe : db.history.filter (fun e => e.id != hid)
          = db.history.filter (fun e => ! (e.id == hid)) := rfl
      simp only [hfe]
      omega

/-- Claim C5 witness: a two-entry database where entry 1 is reversed. -/
def dbTwoEntries : DB :=
  ⟨[⟨1, "Alice", 700⟩], [⟨1, 1, 1000, 1000, 0⟩, ⟨2, 1, -300, 700, 1⟩], [], []⟩

/-- Claim C5 witness: reversal of entry 1 of dbTwoEntries, hypotheses
discharged by rfl and decide. -/
theorem delete_history_entry_spec_witness :
    ∃ db', delete_history_entry true dbTwoEntries 1 =
        .ok (db', (1000 : Int)) ∧
      (∀ p, findPlayer dbTwoEntries 1 = some p →
        findPlayer db' 1 = some { p with base_total := p.base_total - 1000 }) ∧
      db'.history = dbTwoEntries.history.filter (fun e => e.id != 1) ∧
      (∀ e ∈ dbTwoEntries.history, e.id ≠ 1 → e ∈ db'.history) ∧
      (∀ e ∈ db'.history, e ∈ dbTwoEntries.history ∧ e.id ≠ 1) ∧
      ((dbTwoEntries.history.map (fun e => e.id)).Nodup →
        db'.history.length + 1 = dbTwoEntries.history.length) :=
  (delete_history_entry_spec dbTwoEntries 1).2 ⟨1, 1, 1000, 1000, 0⟩ rfl

/-- Claim C9: remove_pot decrements today's pot counter for the player,
floored at zero; it is a creation-free no-op when no counter row exists
for (player, today), and it never touches pot history (nor the ledger or
the players). -/
theorem remove_pot_spec (db : DB) (pid today : Nat) :
    ∃ db', remove_pot true db pid today = .ok db' ∧
      db'.pot_history = db.pot_history ∧
      db'.history = db.history ∧
      db'.players = db.players ∧
      db'.pots.length = db.pots.length ∧
      (findPot db pid today = none → db' = db) ∧
      (∀ e, findPot db pid today = some e →
        findPot db' pid today =
          some { e with pot_count := max (e.pot_count - 1) 0 }) := by
  refine ⟨_, rfl, rfl, rfl, rfl, ?_, ?_, ?_⟩
  · simp
  · intro hn
    have : db.pots.map (fun e =>
        if e.player_id == pid && e.session_date == today then
          { e with pot_count := max (e.pot_count - 1) 0 }
        else e) = db.pots := by
      apply map_eq_self_of_none _ _ _ _ hn
      intro a ha
      simp [ha]
    simp only [this]
  · intro e he
    unfold findPot
    simp only
    rw [find?_map_invariant]
    · have he' : db.pots.find?
          (fun e => e.player_id == pid && e.session_date == today) = some e := he
      rw [he']
      have hee := List.find?_some he'
      simp only at hee
      show some (if e.player_id == pid && e.session_date == today then
          { e with pot_count := max (e.pot_count - 1) 0 } else e) = _
      rw [if_pos hee]
    · intro a
      by_cases h : (a.player_id == pid && a.session_date == today) = true <;>
        simp [h]

/-- Claim C9 witness: a database whose only pot row is (player 1, today 5,
count 2); removal leaves count 1. -/
def dbOnePot : DB := ⟨[⟨1, "Alice", 0⟩], [], [⟨1, 2, 5⟩], []⟩

/-- Claim C9 witness: instantiation of remove_pot_spec at dbOnePot. -/
theorem remove_pot_spec_witness :
    ∃ db', remove_pot true dbOnePot 1 5 = .ok db' ∧
      db'.pot_history = dbOnePot.pot_history ∧
      db'.history = dbOnePot.history ∧
      db'.players = dbOnePot.players ∧
      db'.pots.length = dbOnePot.pots.length ∧
      (findPot dbOnePot 1 5 = none → db' = dbOnePot) ∧
      (∀ e, findPot dbOnePot 1 5 = some e →
        findPot db' 1 5 = some { e with pot_count := max (e.pot_count - 1) 0 }) :=
  remove_pot_spec dbOnePot 1 5

/-- Claim C7 witness: deleting the absent player 2 from the one-player
database is a no-op. -/
theorem delete_player_spec_witness :
    ∃ db', delete_player true dbAlice 2 = .ok db' ∧
      playerHistory db' 2 = [] ∧
      findPlayer db' 2 = none ∧
      (∀ e ∈ dbAlice.history, e.player_id ≠ 2 → e ∈ db'.history) ∧
      (findPlayer dbAlice 2 = none → playerHistory dbAlice 2 = [] →
        db' = dbAlice) :=
  delete_player_spec dbAlice 2

/-! ## Fault model for the add_points write path

Each execute_query call in src/app.py opens its own connection, commits
and closes; the two writes of add_points (the UPDATE of players and the
INSERT into history) are therefore two independent transactions, and an
exception raised by the second one propagates after the first has already
committed.  add_points_store_ops replays add_points against a store that
commits the first okOps statements (SELECT, UPDATE, INSERT in program
order) and fails on the next; it returns the resulting database and
whether the handler completed. -/
def add_points_store_ops (db : DB) (pid : Nat) (points : Int)
    (ts newId : Nat) (okOps : Nat) : DB × Bool :=
  if okOps = 0 then (db, false)
  else
    match findPlayer db pid with
    | none => (db, false)
    | some p =>
      let new_total := p.base_total + points
      if okOps = 1 then (db, false)
      else
        let db1 := { db with players := db.players.map (fun q =>
          if q.id == pid then { q with base_total := new_total } else q) }
        if okOps = 2 then (db1, false)
        else ({ db1 with
                 history := db.history ++ [⟨newId, pid, points, new_total, ts⟩] },
              true)

/-- A completed run of the fault model coincides with add_points. -/
lemma add_points_store_ops_complete (db : DB) (pid : Nat) (points : Int)
    (ts newId : Nat) (p : Player) (hp : findPlayer db pid = some p) :
    ∃ db', add_points true db pid points ts newId = .ok (db', p.base_total + points) ∧
      add_points_store_ops db pid points ts newId 3 = (db', true) := by
  refine ⟨{ db with
             players := db.players.map (fun q =>
               if q.id == pid then { q with base_total := p.base_total + points }
               else q),
             history := db.history ++ [⟨newId, pid, points, p.base_total + points, ts⟩] },
    ?_, ?_⟩ <;> simp [add_points, add_points_store_ops, hp]

/-- Claim C4: add_points is not atomic.  On the one-player database, a
store failure on the history INSERT after the UPDATE has committed leaves
the request failed, the player's running_total already changed from 0 to
5, and no ledger entry appended, so the two writes are neither both
committed nor both absent. -/
theorem add_points_partial_commit :
    (add_points_store_ops dbAlice 1 5 3 1 2).2 = false ∧
    (add_points_store_ops dbAlice 1 5 3 1 2).1.history = dbAlice.history ∧
    running_total dbAlice 1 = some 0 ∧
    running_total (add_points_store_ops dbAlice 1 5 3 1 2).1 1 = some 5 := by
  exact ⟨rfl, rfl, rfl, rfl⟩

/-! ## Sequences of add_points calls (claim C1) -/

/-- A sequence of successful add_points calls for one player; each call
supplies a delta, a timestamp and a fresh row id.  Stops (none) at the
first failing call. -/
def addPointsSeq (db : DB) (pid : Nat) : List (Int × Nat × Nat) → Option DB
  | [] => some db
  | (d, ts, nid) :: rest =>
    match add_points true db pid d ts nid with
    | .ok (db', _) => addPointsSeq db' pid rest
    | .error _ => none

/-- The sum of the deltas of a call sequence. -/
def sumDeltas (l : List (Int × Nat × Nat)) : Int := (l.map (fun x => x.1)).sum

lemma addPointsSeq_invariant (pid : Nat) :
    ∀ (l : List (Int × Nat × Nat)) (db : DB) (p : Player),
      findPlayer db pid = some p →
      (∀ e, (playerHistory db pid).getLast? = some e →
        e.total_after = p.base_total) →
      ∃ db' p', addPointsSeq db pid l = some db' ∧
        findPlayer db' pid = some p' ∧
        p'.base_total = p.base_total + sumDeltas l ∧
        (∀ e, (playerHistory db' pid).getLast? = some e →
          e.total_after = p'.base_total) ∧
        (playerHistory db' pid).length = (playerHistory db pid).length + l.length
  | [], db, p, hp, hlast =>
    ⟨db, p, rfl, hp, by simp [sumDeltas], hlast, rfl⟩
  | (d, ts, nid) :: rest, db, p, hp, hlast => by
    have hstep : add_points true db pid d ts nid =
        .ok ({ db with
                players := db.players.map (fun q =>
                  if q.id == pid then { q with base_total := p.base_total + d }
                  else q),
                history := db.history ++ [⟨nid, pid, d, p.base_total + d, ts⟩] },
             p.base_total + d) := by
      simp [add_points, hp]
    have hp' : db.players.find? (fun q => q.id == pid) = some p := hp
    have hpp := List.find?_some hp'
    simp only [beq_iff_eq] at hpp
    have hp1 : findPlayer { db with
        players := db.players.map (fun q =>
          if q.id == pid then { q with base_total := p.base_total + d } else q),
        history := db.history ++ [⟨nid, pid, d, p.base_total + d, ts⟩] } pid
        = some { p with base_total := p.base_total + d } := by
      unfold findPlayer
      simp only
      rw [find?_players_map_update db.players pid pid
        (fun q => { q with base_total := p.base_total + d }) (fun q => rfl), hp']
      simp [hpp]
    have hhist1 : playerHistory { db with
        players := db.players.map (fun q =>
          if q.id == pid then { q with base_total := p.base_total + d } else q),
        history := db.history ++ [⟨nid, pid, d, p.base_total + d, ts⟩] } pid
        = playerHistory db pid ++ [⟨nid, pid, d, p.base_total + d, ts⟩] := by
      unfold playerHistory
      simp [List.filter_append]
    have hlast1 : ∀ e,
        (playerHistory db pid
            ++ [(⟨nid, pid, d, p.base_total + d, ts⟩ : HistoryEntry)]).getLast?
          = some e → e.total_after = p.base_total + d := by
      intro e he
      rw [List.getLast?_concat] at he
      cases he
      rfl
    obtain ⟨db', pfin, hseq, hpfin, htot, hlastfin, hlenfin⟩ :=
      addPointsSeq_invariant pid rest _ { p with base_total := p.base_total + d }
        hp1 (by rw [hhist1]; exact hlast1)
    refine ⟨db', pfin, ?_, hpfin, ?_, hlastfin, ?_⟩
    · simp only [addPointsSeq, hstep]
      exact hseq
    · simp only at htot
      rw [htot]
      simp [sumDeltas]
      ring
    · rw [hlenfin, hhist1]
      simp [List.length_append]
      omega

/-- Claim C1: starting from a freshly registered player (running_total 0,
no ledger entries), any sequence of successful add_points calls leaves
running_total equal to the sum of the applied deltas, and when the
sequence is non-empty the most recently appended ledger entry carries
total_after equal to that running_total. -/
theorem add_points_running_total_spec (db : DB) (pid : Nat) (p : Player)
    (l : List (Int × Nat × Nat))
    (hp : findPlayer db pid = some p) (h0 : p.base_total = 0)
    (hh : playerHistory db pid = []) :
    ∃ db', addPointsSeq db pid l = some db' ∧
      running_total db' pid = some (sumDeltas l) ∧
      (l ≠ [] → ∃ e, (playerHistory db' pid).getLast? = some e ∧
        e.total_after = sumDeltas l) := by
  obtain ⟨db', p', hseq, hp', htot, hlast, hlen⟩ :=
    addPointsSeq_invariant pid l db p hp (by simp [hh])
  have htot' : p'.base_total = sumDeltas l := by rw [htot, h0, zero_add]
  refine ⟨db', hseq, ?_, ?_⟩
  · unfold running_total
    rw [hp']
    simp [htot']
  · intro hl
    rw [hh] at hlen
    simp only [List.length_nil, Nat.zero_add] at hlen
    have hne : playerHistory db' pid ≠ [] := by
      intro hnil
      rw [hnil] at hlen
      exact hl (List.length_eq_zero.mp hlen.symm)
    cases hgl : (playerHistory db' pid).getLast? with
    | none => exact absurd (List.getLast?_eq_none_iff.mp hgl) hne
    | some e => exact ⟨e, rfl, htot' ▸ hlast e hgl⟩

/-- Claim C1 witness: Alice gains 1000 then loses 1500; her running_total
is -500 and the last ledger entry records total_after -500. -/
theorem add_points_running_total_spec_witness :
    ∃ db', addPointsSeq dbAlice 1 [(1000, 1, 1), (-1500, 2, 2)] = some db' ∧
      running_total db' 1 = some (sumDeltas [(1000, 1, 1), (-1500, 2, 2)]) ∧
      ([(1000, 1, 1), (-1500, 2, 2)] ≠ ([] : List (Int × Nat × Nat)) →
        ∃ e, (playerHistory db' 1).getLast? = some e ∧
          e.total_after = sumDeltas [(1000, 1, 1), (-1500, 2, 2)]) :=
  add_points_running_total_spec dbAlice 1 ⟨1, "Alice", 0⟩
    [(1000, 1, 1), (-1500, 2, 2)] rfl rfl rfl

/-! ## Player details (claim C8) -/

/-- Python's built-in max over a list of ints (unused 0 on the empty
list, which Python would reject; every use below appends a 0 first). -/
def pymax : List Int → Int
  | [] => 0
  | [x] => x
  | x :: y :: t => max x (pymax (y :: t))

/-- Python's built-in min over a list of ints. -/
def pymin : List Int → Int
  | [] => 0
  | [x] => x
  | x :: y :: t => min x (pymin (y :: t))

lemma le_pymax : ∀ (l : List Int), ∀ x ∈ l, x ≤ pymax l
  | [], x, hx => absurd hx (List.not_mem_nil x)
  | [a], x, hx => by
    simp only [List.mem_singleton] at hx
    simp [pymax, hx]
  | a :: b :: t, x, hx => by
    have hpy : pymax (a :: b :: t) = max a (pymax (b :: t)) := rfl
    rw [hpy]
    rcases List.mem_cons.mp hx with h | h
    · subst h; exact le_max_left _ _
    · exact le_trans (le_pymax (b :: t) x h) (le_max_right _ _)

lemma pymax_mem : ∀ (l : List Int), l ≠ [] → pymax l ∈ l
  | [], h => absurd rfl h
  | [a], _ => by simp [pymax]
  | a :: b :: t, _ => by
    have hpy : pymax (a :: b :: t) = max a (pymax (b :: t)) := rfl
    rw [hpy]
    rcases max_choice a (pymax (b :: t)) with h | h
    · rw [h]; exact List.mem_cons_self a _
    · rw [h]; exact List.mem_cons_of_mem a (pymax_mem (b :: t) (by simp))

lemma pymin_le : ∀ (l : List Int), ∀ x ∈ l, pymin l ≤ x
  | [], x, hx => absurd hx (List.not_mem_nil x)
  | [a], x, hx => by
    simp only [List.mem_singleton] at hx
    simp [pymin, hx]
  | a :: b :: t, x, hx => by
    have hpy : pymin (a :: b :: t) = min a (pymin (b :: t)) := rfl
    rw [hpy]
    rcases List.mem_cons.mp hx with h | h
    · subst h; exact min_le_left _ _
    · exact le_trans (min_le_right _ _) (pymin_le (b :: t) x h)

lemma pymin_mem : ∀ (l : List Int), l ≠ [] → pymin l ∈ l
  | [], h => absurd rfl h
  | [a], _ => by simp [pymin]
  | a :: b :: t, _ => by
    have hpy : pymin (a :: b :: t) = min a (pymin (b :: t)) := rfl
    rw [hpy]
    rcases min_choice a (pymin (b :: t)) with h | h
    · rw [h]; exact List.mem_cons_self a _
    · rw [h]; exact List.mem_cons_of_mem a (pymin_mem (b :: t) (by simp))

/-- The full player profile computed by get_player_details. -/
structure PlayerDetails where
  player : Player
  total_games : Nat
  total_wins : Nat
  total_losses : Nat
  biggest_win : Int
  biggest_loss : Int
  win_rate : ℚ
  total_pots_bought : Int
  pots_earned : Int
deriving DecidableEq, Repr

/-- src/app.py get_player_details (GET /api/players/id/details): 404 when
the player is absent; otherwise the stats over the player's full history
(wins and losses counted by sign, biggest win and loss as
max/min(points_added list + [0])), the win rate as
round(wins / games * 100, 1) guarded by games > 0, total pots bought from
pot_history, and pots_earned = base_total // 1000 (Python floor
division, Int.fdiv). -/
def get_player_details (db : DB) (pid : Nat) : Except ApiError PlayerDetails :=
  match findPlayer db pid with
  | .none => .error .NotFound
  | .some p =>
    let history := db.history.filter (fun h => h.player_id == pid)
    let pot_history := db.pot_history.filter (fun e => e.player_id == pid)
    let total_wins := (history.filter (fun h => decide (0 < h.points_added))).length
    let total_losses := (history.filter (fun h => decide (h.points_added < 0))).length
    let biggest_win := pymax (history.map (fun h => h.points_added) ++ [0])
    let biggest_loss := pymin (history.map (fun h => h.points_added) ++ [0])
    let total_games := history.length
    let total_pots_bought := (pot_history.map (fun e => e.pot_count)).sum
    let pots_earned := p.base_total.fdiv 1000
    .ok ⟨p, total_games, total_wins, total_losses, biggest_win, biggest_loss,
      (if 0 < total_games then
        round_to 1 ((total_wins : ℚ) / (total_games : ℚ) * 100)
      else 0),
      total_pots_bought, pots_earned⟩

/-- Claim C8: for an existing player, the details are computed over the
full ledger history: games and signed win/loss counts, biggest win (the
maximum delta, or 0 with no positive entry), biggest loss (the minimum
delta, or 0 with no negative entry), the win rate formula guarded by
games > 0, and pots_earned as floor division of running_total by 1000
(truncating toward negative infinity, so possibly negative). -/
theorem get_player_details_spec (db : DB) (pid : Nat) (p : Player)
    (hp : findPlayer db pid = some p) :
    ∃ d, get_player_details db pid = .ok d ∧
      d.player = p ∧
      d.total_games = (playerHistory db pid).length ∧
      d.total_wins
        = (playerHistory db pid).countP (fun h => decide (0 < h.points_added)) ∧
      d.total_losses
        = (playerHistory db pid).countP (fun h => decide (h.points_added < 0)) ∧
      ((∃ h ∈ playerHistory db pid, 0 < h.points_added) →
        d.biggest_win ∈ (playerHistory db pid).map (fun h => h.points_added) ∧
        ∀ h ∈ playerHistory db pid, h.points_added ≤ d.biggest_win) ∧
      ((∀ h ∈ playerHistory db pid, h.points_added ≤ 0) → d.biggest_win = 0) ∧
      ((∃ h ∈ playerHistory db pid, h.points_added < 0) →
        d.biggest_loss ∈ (playerHistory db pid).map (fun h => h.points_added) ∧
        ∀ h ∈ playerHistory db pid, d.biggest_loss ≤ h.points_added) ∧
      ((∀ h ∈ playerHistory db pid, 0 ≤ h.points_added) → d.biggest_loss = 0) ∧
      (0 < d.total_games →
        d.win_rate
          = round_to 1 ((d.total_wins : ℚ) / (d.total_games : ℚ) * 100)) ∧
      (d.total_games = 0 → d.win_rate = 0) ∧
      1000 * d.pots_earned ≤ p.base_total ∧
      p.base_total < 1000 * (d.pots_earned + 1) := by
  have hmain : get_player_details db pid =
      .ok ⟨p, (playerHistory db pid).length,
        ((playerHistory db pid).filter (fun h => decide (0 < h.points_added))).length,
        ((playerHistory db pid).filter (fun h => decide (h.points_added < 0))).length,
        pymax ((playerHistory db pid).map (fun h => h.points_added) ++ [0]),
        pymin ((playerHistory db pid).map (fun h => h.points_added) ++ [0]),
        (if 0 < (playerHistory db pid).length then
          round_to 1
            ((((playerHistory db pid).filter
                (fun h => decide (0 < h.points_added))).length : ℚ)
              / ((playerHistory db pid).length : ℚ) * 100)
        else 0),
        ((db.pot_history.filter (fun e => e.player_id == pid)).map
          (fun e => e.pot_count)).sum,
        p.base_total.fdiv 1000⟩ := by
    unfold get_player_details
    rw [hp]
    rfl
  refine ⟨_, hmain, rfl, rfl, ?_, ?_, ?_, ?_, ?_, ?_, ?_, ?_, ?_, ?_⟩
  all_goals dsimp only
  · exact (List.countP_eq_length_filter _ _).symm
  · exact (List.countP_eq_length_filter _ _).symm
  · intro ⟨h, hmem, hpos⟩
    set pts := (playerHistory db pid).map (fun h => h.points_added) with hpts
    have hub : ∀ e ∈ playerHistory db pid, e.points_added ≤ pymax (pts ++ [0]) := by
      intro e he
      exact le_pymax (pts ++ [0]) e.points_added
        (List.mem_append_left _ (List.mem_map.mpr ⟨e, he, rfl⟩))
    have hpm : pymax (pts ++ [0]) ∈ pts ++ [0] := pymax_mem _ (by simp)
    have hpospm : 0 < pymax (pts ++ [0]) := lt_of_lt_of_le hpos (hub h hmem)
    constructor
    · rcases List.mem_append.mp hpm with hm | hm
      · exact hm
      · simp only [List.mem_singleton] at hm
        omega
    · exact hub
  · intro hall
    set pts := (playerHistory db pid).map (fun h => h.points_added) with hpts
    have hpm : pymax (pts ++ [0]) ∈ pts ++ [0] := pymax_mem _ (by simp)
    have h0le : (0 : Int) ≤ pymax (pts ++ [0]) :=
      le_pymax (pts ++ [0]) 0 (List.mem_append_right _ (List.mem_singleton.mpr rfl))
    rcases List.mem_append.mp hpm with hm | hm
    · obtain ⟨e, he, heq⟩ := List.mem_map.mp hm
      have := hall e he
      omega
    · simpa using hm
  · intro ⟨h, hmem, hneg⟩
    set pts := (playerHistory db pid).map (fun h => h.points_added) with hpts
    have hlb : ∀ e ∈ playerHistory db pid, pymin (pts ++ [0]) ≤ e.points_added := by
      intro e he
      exact pymin_le (pts ++ [0]) e.points_added
        (List.mem_append_left _ (List.mem_map.mpr ⟨e, he, rfl⟩))
    have hpm : pymin (pts ++ [0]) ∈ pts ++ [0] := pymin_mem _ (by simp)
    have hnegpm : pymin (pts ++ [0]) < 0 := lt_of_le_of_lt (hlb h hmem) hneg
    constructor
    · rcases List.mem_append.mp hpm with hm | hm
      · exact hm
      · simp only [List.mem_singleton] at hm
        omega
    · exact hlb
  · intro hall
    set pts := (playerHistory db pid).map (fun h => h.points_added) with hpts
    have hpm : pymin (pts ++ [0]) ∈ pts ++ [0] := pymin_mem _ (by simp)
    have hle0 : pymin (pts ++ [0]) ≤ 0 :=
      pymin_le (pts ++ [0]) 0 (List.mem_append_right _ (List.mem_singleton.mpr rfl))
    rcases List.mem_append.mp hpm with hm | hm
    · obtain ⟨e, he, heq⟩ := List.mem_map.mp hm
      have := hall e he
      omega
    · simpa using hm
  · intro hgt
    simp only [if_pos hgt]
  · intro heq
    simp [heq]
  · rw [Int.fdiv_eq_ediv _ (by omega)]
    omega
  · rw [Int.fdiv_eq_ediv _ (by omega)]
    omega

/-- A concrete database for the claim C8 witness: Alice won 1000 then
lost 1500, so her running_total is -500. -/
def dbStats : DB :=
  ⟨[⟨1, "Alice", -500⟩], [⟨1, 1, 1000, 1000, 0⟩, ⟨2, 1, -1500, -500, 1⟩], [], []⟩

/-- Claim C8 witness: the details theorem instantiated at dbStats, where
pots_earned is the negative floor division -500 // 1000 = -1. -/
theorem get_player_details_spec_witness :
    ∃ d, get_player_details dbStats 1 = .ok d ∧
      d.player = (⟨1, "Alice", -500⟩ : Player) ∧
      d.total_games = (playerHistory dbStats 1).length ∧
      d.total_wins
        = (playerHistory dbStats 1).countP (fun h => decide (0 < h.points_added)) ∧
      d.total_losses
        = (playerHistory dbStats 1).countP (fun h => decide (h.points_added < 0)) ∧
      ((∃ h ∈ playerHistory dbStats 1, 0 < h.points_added) →
        d.biggest_win ∈ (playerHistory dbStats 1).map (fun h => h.points_added) ∧
        ∀ h ∈ playerHistory dbStats 1, h.points_added ≤ d.biggest_win) ∧
      ((∀ h ∈ playerHistory dbStats 1, h.points_added ≤ 0) → d.biggest_win = 0) ∧
      ((∃ h ∈ playerHistory dbStats 1, h.points_added < 0) →
        d.biggest_loss ∈ (playerHistory dbStats 1).map (fun h => h.points_added) ∧
        ∀ h ∈ playerHistory dbStats 1, d.biggest_loss ≤ h.points_added) ∧
      ((∀ h ∈ playerHistory dbStats 1, 0 ≤ h.points_added) → d.biggest_loss = 0) ∧
      (0 < d.total_games →
        d.win_rate
          = round_to 1 ((d.total_wins : ℚ) / (d.total_games : ℚ) * 100)) ∧
      (d.total_games = 0 → d.win_rate = 0) ∧
      1000 * d.pots_earned ≤ (-500 : Int) ∧
      (-500 : Int) < 1000 * (d.pots_earned + 1) :=
  get_player_details_spec dbStats 1 ⟨1, "Alice", -500⟩ rfl

end PokerDash
